import Mathlib

/-!
Verification of the face-detection repository's specified logic
(`src/components/FaceRecognitionApp.jsx`), as a shallow embedding.

Numeric values that the JavaScript code handles as IEEE numbers are
modelled as exact rationals (`ℚ`); the pixel buffer of an `ImageData`
frame (a flat RGBA byte array walked four bytes at a time) is modelled
as a list of RGBA pixels, so that `frame.data.length / 4` becomes the
length of the pixel list.
-/

namespace FaceRec

/-- One RGBA pixel of the `ImageData` buffer read by `checkBrightness`. -/
structure Pixel where
  r : ℚ
  g : ℚ
  b : ℚ
  a : ℚ
deriving Repr, DecidableEq

/-- The running `total` of `checkBrightness`: the loop walks the buffer in
steps of four bytes and adds `(frame.data[i] + frame.data[i+1] + frame.data[i+2]) / 3`
for each pixel. -/
def frameTotal (frame : List Pixel) : ℚ :=
  frame.foldl (fun acc p => acc + (p.r + p.g + p.b) / 3) 0

/-- `checkBrightness`: `avg = total / (frame.data.length / 4)` and the warning
fires when `avg < 60`.  On a zero-pixel buffer the JavaScript quotient is
`0 / 0 = NaN` and `NaN < 60` is `false`, so control reaches the `else`
branch; the zero-length case of this definition embeds exactly that
comparison outcome. -/
def brightnessTooDark (frame : List Pixel) : Bool :=
  if frame.length = 0 then false
  else decide (frameTotal frame / (frame.length : ℚ) < 60)

/-- The warning string `checkBrightness` installs when the frame is too dark. -/
def brightnessWarningMsg : String :=
  "Warning: Camera image is too dark. Please increase brightness."

/-- The `brightnessWarning` state after one run of `checkBrightness` on `frame`,
given the prior warning state: the function unconditionally overwrites the
state with the warning or with the empty string. -/
def checkBrightness (frame : List Pixel) (_prev : String) : String :=
  if brightnessTooDark frame then brightnessWarningMsg else ""

/-- A face embedding: `face-api.js` descriptors are numeric vectors
(`Float32Array` of length 128), modelled as lists of rationals. -/
abbrev Embedding := List ℚ

/-- `faceapi.LabeledFaceDescriptors`: a label together with the stored
descriptors collected under that label. -/
structure LabeledIdentity where
  label : String
  descriptors : List Embedding
deriving Repr, DecidableEq

/-- The in-memory registry: the `descriptors` React state array. -/
abbrev Registry := List LabeledIdentity

/-- One element of the JSON array written to `localStorage`:
`{ label: desc.label, descriptors: desc.descriptors.map(d => Array.from(d)) }`.
`Array.from` of a `Float32Array` and JSON serialization are exact on the
stored values, so the persisted numbers are the same rationals. -/
structure SerializedEntry where
  label : String
  descriptors : List (List ℚ)
deriving Repr, DecidableEq

/-- Serialization of one registry entry (`handleRegister`, `toSave`). -/
def serializeEntry (d : LabeledIdentity) : SerializedEntry :=
  ⟨d.label, d.descriptors⟩

/-- Serialization of the whole registry to the persisted JSON array. -/
def serializeRegistry (r : Registry) : List SerializedEntry :=
  r.map serializeEntry

/-- Parsing of one persisted element back into a `LabeledFaceDescriptors`
(the startup `useEffect`: `new faceapi.LabeledFaceDescriptors(item.label,
item.descriptors.map(desc => new Float32Array(desc)))`). -/
def parseEntry (e : SerializedEntry) : LabeledIdentity :=
  ⟨e.label, e.descriptors⟩

/-- Parsing the persisted JSON array back into a registry. -/
def parseRegistry (s : List SerializedEntry) : Registry :=
  s.map parseEntry

/-- The component state touched by registration and detection:
the `descriptors` array, the `name` input, the `detecting` flag and the
`face_descriptors` record held in `localStorage`. -/
structure AppState where
  descriptors : Registry
  name : String
  detecting : Bool
  storage : List SerializedEntry
deriving Repr, DecidableEq

/-- Outcome of `handleRegister`, mirroring its three exits: the empty-name
alert, the no-detection alert, and the success alert. -/
inductive RegisterResult where
  | inputError
  | detectionEmpty
  | success (label : String)
deriving Repr, DecidableEq

/-- `handleRegister`.  The `if (!name)` guard comes first; only past it is
`detectSingleFace` awaited, so the third component counts how many times the
external detector is invoked on this run (0 on the empty-name exit, 1
otherwise).  `det` is the detector's result: `none` when no face is found,
`some d` for the single detection's descriptor.  On success the handler
appends `LabeledFaceDescriptors(name, [descriptor])`, rewrites the
`localStorage` record from the updated array, and clears the name input. -/
def handleRegister (st : AppState) (det : Option Embedding) :
    AppState × RegisterResult × ℕ :=
  if st.name = "" then
    (st, .inputError, 0)
  else
    match det with
    | none => (st, .detectionEmpty, 1)
    | some d =>
        let updated := st.descriptors ++ [⟨st.name, [d]⟩]
        ({ st with
            descriptors := updated
            storage := serializeRegistry updated
            name := "" },
          .success st.name, 1)

/-- A recognition session: the `faceMatcher` built at entry holds the
`descriptors` array value captured by the `handleDetect` closure. -/
structure Session where
  matcher : Registry
deriving Repr, DecidableEq

/-- Outcome of `handleDetect`: either the empty-registry alert with no
session, or a started session. -/
inductive DetectStart where
  | registryEmpty
  | started (s : Session)
deriving Repr, DecidableEq

/-- `handleDetect` entry: `if (descriptors.length === 0)` alerts and returns
with nothing changed; otherwise `setDetecting(true)` and
`new faceapi.FaceMatcher(descriptors, 0.6)` snapshots the current registry. -/
def handleDetect (st : AppState) : AppState × DetectStart :=
  if st.descriptors.length = 0 then
    (st, .registryEmpty)
  else
    ({ st with detecting := true }, .started ⟨st.descriptors⟩)

/-- One registration attempt performed through the UI after the session began:
the user types a name and clicks Register while the detector answers `det`. -/
def applyRegistration (st : AppState) (ev : String × Option Embedding) : AppState :=
  (handleRegister { st with name := ev.1 } ev.2).1

/-- A sequence of registration attempts applied in order. -/
def applyRegistrations (st : AppState) (events : List (String × Option Embedding)) :
    AppState :=
  events.foldl applyRegistration st

/-!
The matcher itself (`faceapi.FaceMatcher` / `findBestMatch`) is library
code that is not part of this repository; the definitions below are
modelled from the spec.  Euclidean-distance comparisons are carried out on
squared distances, which is faithful because the square root is monotone on
nonnegative numbers: the minimum over squared distances is attained at the
same identity as the minimum over distances, `distance ≤ 0.6` holds exactly
when `distSq ≤ 0.36`, and `distance = 0` exactly when `distSq = 0`.
-/

/-- Modelled from the spec: the squared Euclidean distance between two
embedding vectors (the library's `euclideanDistance` is not in this
repository). -/
def distSq (x y : Embedding) : ℚ :=
  (List.zipWith (fun a b => (a - b) ^ 2) x y).sum

/-- Modelled from the spec: the minimum squared distance from the probe to any
embedding of the list, "if a LabeledIdentity holds multiple embeddings,
compare against each and keep the overall minimum".  An empty list does not
arise (registration stores exactly one embedding per identity). -/
def minDistSq (probe : Embedding) : List Embedding → ℚ
  | [] => 0
  | e :: es => (es.map (distSq probe)).foldl min (distSq probe e)

/-- Modelled from the spec: the per-identity (squared) distance between the
probe and an identity's stored embeddings. -/
def identityDistSq (probe : Embedding) (idt : LabeledIdentity) : ℚ :=
  minDistSq probe idt.descriptors

/-- A candidate best match while scanning the registry: a label with its
(squared) distance to the probe. -/
structure FaceMatch where
  label : String
  distanceSq : ℚ
deriving Repr, DecidableEq

/-- One step of the scan for the nearest identity: keep the incumbent unless
the next identity is strictly nearer. -/
def betterMatch (probe : Embedding) (best : FaceMatch) (idt : LabeledIdentity) :
    FaceMatch :=
  let d := identityDistSq probe idt
  if d < best.distanceSq then ⟨idt.label, d⟩ else best

/-- Modelled from the spec: "find the LabeledIdentity in the snapshot with
minimum Euclidean distance between its stored embedding(s) and the probe
embedding".  `none` on an empty registry (which `handleDetect` rules out). -/
def matchDescriptor (registry : Registry) (probe : Embedding) : Option FaceMatch :=
  match registry with
  | [] => none
  | i :: is => some (is.foldl (betterMatch probe) ⟨i.label, identityDistSq probe i⟩)

/-- The fixed distance threshold 0.6 of `new faceapi.FaceMatcher(descriptors, 0.6)`,
squared. -/
def thresholdSq : ℚ := (6 / 10 : ℚ) ^ 2

/-- The per-face outcome: "classified as known (display the identity's name
and numeric distance) if minimum distance ≤ 0.6, else display Unknown". -/
inductive MatchResult where
  | known (label : String) (distanceSq : ℚ)
  | unknown (distanceSq : ℚ)
deriving Repr, DecidableEq

/-- The (squared) distance reported with a match result. -/
def MatchResult.sqDist : MatchResult → ℚ
  | .known _ d => d
  | .unknown d => d

/-- Whether the result classifies the face as known. -/
def MatchResult.isKnown : MatchResult → Bool
  | .known _ _ => true
  | .unknown _ => false

/-- Modelled from the spec: the full match decision for one probe — nearest
identity, then the 0.6 threshold deciding known versus unknown. -/
def findBestMatch (registry : Registry) (probe : Embedding) : Option MatchResult :=
  (matchDescriptor registry probe).map fun best =>
    if best.distanceSq ≤ thresholdSq then .known best.label best.distanceSq
    else .unknown best.distanceSq

/-- The match a poll tick computes for one detected face: the tick's closure
uses the captured `faceMatcher`, never the component's current `descriptors`
state, which is why the current app state is ignored here. -/
def matchDuringSession (sess : Session) (_current : AppState) (probe : Embedding) :
    Option MatchResult :=
  findBestMatch sess.matcher probe

/-- Milliseconds after session entry at which the `setInterval(…, 300)` poll
fires: every 300 ms, until the `setTimeout(…, 30000)` callback runs
`clearInterval`. -/
def pollTickOccurs (elapsedMs : ℕ) : Bool :=
  decide (0 < elapsedMs) && decide (elapsedMs % 300 = 0) && decide (elapsedMs < 30000)

/-- The `detecting` flag as a function of time since session entry: set by
`setDetecting(true)` at entry and reset by `setDetecting(false)` in the
30000 ms timeout. -/
def detectingAt (elapsedMs : ℕ) : Bool :=
  decide (elapsedMs < 30000)

/-- The name input and the Register and Detect buttons all carry
`disabled={detecting}`. -/
def controlsDisabledAt (elapsedMs : ℕ) : Bool :=
  detectingAt elapsedMs

/-- A concrete stored identity used to exercise the handlers on explicit
inputs. -/
def sampleIdentity : LabeledIdentity := ⟨"Alice", [[0, 0]]⟩

/-- A concrete component state with one registered identity. -/
def sampleState : AppState :=
  { descriptors := [sampleIdentity]
    name := "Bob"
    detecting := false
    storage := serializeRegistry [sampleIdentity] }

/-- A concrete component state with nothing registered and an empty name. -/
def emptyState : AppState :=
  { descriptors := []
    name := ""
    detecting := false
    storage := [] }

/-- A one-pixel black frame (alpha 255), used as a concrete dark input. -/
def darkFrame : List Pixel := [⟨0, 0, 0, 255⟩]

/-! Helper lemmas about folds, distances, and the brightness sum. -/

theorem foldl_min_le_init (d : ℚ) (ds : List ℚ) : ds.foldl min d ≤ d := by
  induction ds generalizing d with
  | nil => simp
  | cons x xs ih =>
    calc (x :: xs).foldl min d = xs.foldl min (min d x) := rfl
    _ ≤ min d x := ih _
    _ ≤ d := min_le_left _ _

theorem foldl_min_le_mem (d x : ℚ) (ds : List ℚ) (hx : x ∈ ds) :
    ds.foldl min d ≤ x := by
  induction ds generalizing d with
  | nil => cases hx
  | cons y ys ih =>
    rcases List.mem_cons.mp hx with h | h
    · subst h
      calc (x :: ys).foldl min d = ys.foldl min (min d x) := rfl
      _ ≤ min d x := foldl_min_le_init _ _
      _ ≤ x := min_le_right _ _
    · exact ih (min d y) h

theorem foldl_min_mem (d : ℚ) (ds : List ℚ) : ds.foldl min d ∈ d :: ds := by
  induction ds generalizing d with
  | nil => simp
  | cons x xs ih =>
    have step : (x :: xs).foldl min d = xs.foldl min (min d x) := rfl
    rcases List.mem_cons.mp (ih (min d x)) with h1 | h1
    · rw [step, h1]
      rcases min_cases d x with ⟨h2, _⟩ | ⟨h2, _⟩
      · rw [h2]; exact List.mem_cons_self _ _
      · rw [h2]; exact List.mem_cons_of_mem _ (List.mem_cons_self _ _)
    · rw [step]
      exact List.mem_cons_of_mem _ (List.mem_cons_of_mem _ h1)

theorem distSq_self (x : Embedding) : distSq x x = 0 := by
  induction x with
  | nil => rfl
  | cons a as ih =>
    simp only [distSq, List.zipWith_cons_cons, List.sum_cons, sub_self] at ih ⊢
    simp [ih]

theorem distSq_nonneg (x y : Embedding) : 0 ≤ distSq x y := by
  induction x generalizing y with
  | nil => simp [distSq]
  | cons a as ih =>
    cases y with
    | nil => simp [distSq]
    | cons b bs =>
      have h := ih bs
      simp only [distSq, List.zipWith_cons_cons, List.sum_cons] at h ⊢
      have h2 : (0 : ℚ) ≤ (a - b) ^ 2 := sq_nonneg _
      linarith

theorem minDistSq_le (probe : Embedding) (ds : List Embedding) (e : Embedding)
    (he : e ∈ ds) : minDistSq probe ds ≤ distSq probe e := by
  cases ds with
  | nil => cases he
  | cons e0 es =>
    rcases List.mem_cons.mp he with h | h
    · subst h
      exact foldl_min_le_init _ _
    · exact foldl_min_le_mem _ _ _ (List.mem_map_of_mem _ h)

theorem minDistSq_attained (probe : Embedding) (ds : List Embedding)
    (hne : ds ≠ []) : ∃ e ∈ ds, minDistSq probe ds = distSq probe e := by
  cases ds with
  | nil => cases hne rfl
  | cons e0 es =>
    rcases List.mem_cons.mp (foldl_min_mem (distSq probe e0) (es.map (distSq probe)))
      with h | h
    · exact ⟨e0, List.mem_cons_self _ _, h⟩
    · rcases List.mem_map.mp h with ⟨e, he, heq⟩
      exact ⟨e, List.mem_cons_of_mem _ he, heq.symm⟩

theorem minDistSq_nonneg (probe : Embedding) (ds : List Embedding) :
    0 ≤ minDistSq probe ds := by
  cases ds with
  | nil => simp [minDistSq]
  | cons e0 es =>
    rcases minDistSq_attained probe (e0 :: es) (by simp) with ⟨e, _, heq⟩
    rw [heq]
    exact distSq_nonneg _ _

theorem minDistSq_mem_zero (probe : Embedding) (ds : List Embedding)
    (h : probe ∈ ds) : minDistSq probe ds = 0 := by
  have h1 : minDistSq probe ds ≤ distSq probe probe := minDistSq_le probe ds probe h
  rw [distSq_self] at h1
  exact le_antisymm h1 (minDistSq_nonneg probe ds)

theorem betterMatch_distanceSq_le (probe : Embedding) (best : FaceMatch)
    (idt : LabeledIdentity) :
    (betterMatch probe best idt).distanceSq ≤ best.distanceSq ∧
    (betterMatch probe best idt).distanceSq ≤ identityDistSq probe idt := by
  unfold betterMatch
  by_cases h : identityDistSq probe idt < best.distanceSq
  · simp only [if_pos h]
    exact ⟨le_of_lt h, le_refl _⟩
  · simp only [if_neg h]
    exact ⟨le_refl _, le_of_not_lt h⟩

theorem foldl_better_le (probe : Embedding) (is : List LabeledIdentity)
    (best : FaceMatch) :
    (is.foldl (betterMatch probe) best).distanceSq ≤ best.distanceSq ∧
    ∀ j ∈ is, (is.foldl (betterMatch probe) best).distanceSq ≤
      identityDistSq probe j := by
  induction is generalizing best with
  | nil => exact ⟨le_refl _, by intro j hj; cases hj⟩
  | cons a as ih =>
    have step : (a :: as).foldl (betterMatch probe) best
        = as.foldl (betterMatch probe) (betterMatch probe best a) := rfl
    rcases ih (betterMatch probe best a) with ⟨ih1, ih2⟩
    rcases betterMatch_distanceSq_le probe best a with ⟨hb1, hb2⟩
    refine ⟨?_, ?_⟩
    · rw [step]; exact le_trans ih1 hb1
    · intro j hj
      rcases List.mem_cons.mp hj with h | h
      · subst h
        rw [step]
        exact le_trans ih1 hb2
      · rw [step]
        exact ih2 j h

theorem foldl_better_attained (probe : Embedding) (is : List LabeledIdentity)
    (best : FaceMatch) :
    is.foldl (betterMatch probe) best = best ∨
    ∃ j ∈ is, is.foldl (betterMatch probe) best
      = ⟨j.label, identityDistSq probe j⟩ := by
  induction is generalizing best with
  | nil => exact Or.inl rfl
  | cons a as ih =>
    have step : (a :: as).foldl (betterMatch probe) best
        = as.foldl (betterMatch probe) (betterMatch probe best a) := rfl
    rcases ih (betterMatch probe best a) with h | ⟨j, hj, heq⟩
    · rw [step, h]
      unfold betterMatch
      by_cases hc : identityDistSq probe a < best.distanceSq
      · simp only [if_pos hc]
        exact Or.inr ⟨a, List.mem_cons_self _ _, rfl⟩
      · simp only [if_neg hc]
        exact Or.inl (by trivial)
    · rw [step, heq]
      exact Or.inr ⟨j, List.mem_cons_of_mem _ hj, rfl⟩

theorem matchDescriptor_spec (registry : Registry) (probe : Embedding)
    (hne : registry ≠ []) :
    ∃ b : FaceMatch, matchDescriptor registry probe = some b ∧
      (∀ idt ∈ registry, b.distanceSq ≤ identityDistSq probe idt) ∧
      ∃ idt ∈ registry, b = ⟨idt.label, identityDistSq probe idt⟩ := by
  cases registry with
  | nil => cases hne rfl
  | cons i is =>
    refine ⟨is.foldl (betterMatch probe) ⟨i.label, identityDistSq probe i⟩,
      rfl, ?_, ?_⟩
    · intro idt hidt
      rcases foldl_better_le probe is ⟨i.label, identityDistSq probe i⟩
        with ⟨h1, h2⟩
      rcases List.mem_cons.mp hidt with h | h
      · subst h; exact h1
      · exact h2 idt h
    · rcases foldl_better_attained probe is ⟨i.label, identityDistSq probe i⟩
        with h | ⟨j, hj, heq⟩
      · exact ⟨i, List.mem_cons_self _ _, h⟩
      · exact ⟨j, List.mem_cons_of_mem _ hj, heq⟩

theorem foldl_add_eq (f : Pixel → ℚ) (frame : List Pixel) (acc : ℚ) :
    frame.foldl (fun a p => a + f p) acc = acc + (frame.map f).sum := by
  induction frame generalizing acc with
  | nil => simp
  | cons p ps ih =>
    simp only [List.foldl_cons, List.map_cons, List.sum_cons, ih]
    ring

theorem frameTotal_eq_sum (frame : List Pixel) :
    frameTotal frame = (frame.map (fun p => (p.r + p.g + p.b) / 3)).sum := by
  unfold frameTotal
  rw [foldl_add_eq]
  ring

theorem sum_lt_of_forall_lt (l : List ℚ) (c : ℚ) (hne : l ≠ [])
    (h : ∀ x ∈ l, x < c) : l.sum < c * l.length := by
  induction l with
  | nil => cases hne rfl
  | cons x xs ih =>
    cases xs with
    | nil =>
      simp only [List.sum_cons, List.sum_nil, add_zero, List.length_cons,
        List.length_nil]
      have hx := h x (List.mem_cons_self _ _)
      push_cast
      linarith
    | cons y ys =>
      have hx := h x (List.mem_cons_self _ _)
      have htail := ih (by simp) (fun z hz => h z (List.mem_cons_of_mem _ hz))
      simp only [List.sum_cons, List.length_cons] at htail ⊢
      push_cast at htail ⊢
      linarith

theorem sum_of_forall_eq (l : List ℚ) (c : ℚ) (h : ∀ x ∈ l, x = c) :
    l.sum = c * l.length := by
  induction l with
  | nil => simp
  | cons x xs ih =>
    have hx := h x (List.mem_cons_self _ _)
    have htail := ih (fun z hz => h z (List.mem_cons_of_mem _ hz))
    simp only [List.sum_cons, List.length_cons]
    push_cast
    rw [hx, htail]
    ring

/-! Claim theorems. -/

/-- C1: for a probe against a non-empty registry snapshot, the emitted
MatchResult carries the overall minimum of the per-identity minimum
(squared) distances; when classified known, its label is that of an
identity attaining this minimum; the face is known exactly when the minimum
squared distance is at most 0.36 = 0.6²; a probe equal to a stored
embedding yields known at distance 0; a probe farther than 0.6 from every
stored embedding yields unknown. -/
theorem best_match_policy (registry : Registry) (probe : Embedding)
    (hne : registry ≠ []) :
    ∃ m : MatchResult, findBestMatch registry probe = some m ∧
      (∀ idt ∈ registry, m.sqDist ≤ identityDistSq probe idt) ∧
      (∃ idt ∈ registry, m.sqDist = identityDistSq probe idt ∧
        (m.isKnown = true → m = MatchResult.known idt.label m.sqDist)) ∧
      (m.isKnown = true ↔ m.sqDist ≤ thresholdSq) ∧
      ((∃ idt ∈ registry, probe ∈ idt.descriptors) →
        m.sqDist = 0 ∧ m.isKnown = true) ∧
      ((∀ idt ∈ registry, idt.descriptors ≠ [] ∧
          ∀ e ∈ idt.descriptors, thresholdSq < distSq probe e) →
        m.isKnown = false) := by
  rcases matchDescriptor_spec registry probe hne with
    ⟨b, hb, hmin, idt0, hidt0, hval⟩
  have hbl : b.label = idt0.label := by rw [hval]
  have hbd : b.distanceSq = identityDistSq probe idt0 := by rw [hval]
  set m : MatchResult :=
    if b.distanceSq ≤ thresholdSq then MatchResult.known b.label b.distanceSq
    else MatchResult.unknown b.distanceSq with hmdef
  have hfb : findBestMatch registry probe = some m := by
    unfold findBestMatch
    rw [hb, hmdef]
    rfl
  have hsq : m.sqDist = b.distanceSq := by
    by_cases h : b.distanceSq ≤ thresholdSq
    · rw [hmdef, if_pos h]; rfl
    · rw [hmdef, if_neg h]; rfl
  have hkn : m.isKnown = true ↔ b.distanceSq ≤ thresholdSq := by
    by_cases h : b.distanceSq ≤ thresholdSq
    · rw [hmdef, if_pos h]; simp [MatchResult.isKnown, h]
    · rw [hmdef, if_neg h]; simp [MatchResult.isKnown, h]
  have hklabel : m.isKnown = true → m = MatchResult.known b.label b.distanceSq := by
    by_cases h : b.distanceSq ≤ thresholdSq
    · intro _; rw [hmdef, if_pos h]
    · rw [hmdef, if_neg h]
      intro hc
      simp [MatchResult.isKnown] at hc
  refine ⟨m, hfb, ?_, ?_, ?_, ?_, ?_⟩
  · intro idt hidt
    rw [hsq]
    exact hmin idt hidt
  · refine ⟨idt0, hidt0, by rw [hsq, hbd], ?_⟩
    intro hk
    rw [hklabel hk, hbl]
    rfl
  · rw [hsq]
    exact hkn
  · rintro ⟨idt1, hidt1, hpe⟩
    have h0 : identityDistSq probe idt1 = 0 := minDistSq_mem_zero probe _ hpe
    have hle : m.sqDist ≤ 0 := by
      have hm1 := hmin idt1 hidt1
      rw [hsq]
      rw [h0] at hm1
      exact hm1
    have hge : (0 : ℚ) ≤ m.sqDist := by
      rw [hsq, hbd]
      exact minDistSq_nonneg probe _
    have hzero : m.sqDist = 0 := le_antisymm hle hge
    refine ⟨hzero, hkn.mpr ?_⟩
    rw [← hsq, hzero]
    norm_num [thresholdSq]
  · intro hall
    rcases hall idt0 hidt0 with ⟨hne0, hfar⟩
    rcases minDistSq_attained probe idt0.descriptors hne0 with ⟨e, he, heq⟩
    have hgt : thresholdSq < identityDistSq probe idt0 := by
      show thresholdSq < minDistSq probe idt0.descriptors
      rw [heq]
      exact hfar e he
    cases hbk : m.isKnown with
    | false => rfl
    | true =>
      exfalso
      have hle := hkn.mp hbk
      rw [hbd] at hle
      linarith

/-- C1 witness: the policy at the concrete registry holding Alice with stored
embedding [0, 0] and the probe [0, 0]. -/
theorem best_match_policy_witness :
    ([sampleIdentity] : Registry) ≠ [] ∧
    (∃ m : MatchResult, findBestMatch [sampleIdentity] [0, 0] = some m ∧
      (∀ idt ∈ ([sampleIdentity] : Registry),
        m.sqDist ≤ identityDistSq [0, 0] idt) ∧
      (∃ idt ∈ ([sampleIdentity] : Registry),
        m.sqDist = identityDistSq [0, 0] idt ∧
        (m.isKnown = true → m = MatchResult.known idt.label m.sqDist)) ∧
      (m.isKnown = true ↔ m.sqDist ≤ thresholdSq) ∧
      ((∃ idt ∈ ([sampleIdentity] : Registry), [0, 0] ∈ idt.descriptors) →
        m.sqDist = 0 ∧ m.isKnown = true) ∧
      ((∀ idt ∈ ([sampleIdentity] : Registry), idt.descriptors ≠ [] ∧
          ∀ e ∈ idt.descriptors, thresholdSq < distSq [0, 0] e) →
        m.isKnown = false)) :=
  ⟨by simp, best_match_policy [sampleIdentity] [0, 0] (by simp)⟩

/-- C2: on a non-empty frame the Brightness Monitor flags "too dark" exactly
when the mean over all pixels of the per-pixel R,G,B average is strictly
below 60; a frame whose every pixel averages below 60 flags "too dark"; an
all-255 frame reads "ok". -/
theorem brightness_threshold (frame : List Pixel) (hne : frame ≠ []) :
    (brightnessTooDark frame = true ↔
      frameTotal frame / (frame.length : ℚ) < 60) ∧
    ((∀ p ∈ frame, (p.r + p.g + p.b) / 3 < 60) →
      brightnessTooDark frame = true) ∧
    ((∀ p ∈ frame, p = ⟨255, 255, 255, 255⟩) →
      brightnessTooDark frame = false) := by
  have hlen : frame.length ≠ 0 := by
    intro h
    exact hne (List.length_eq_zero.mp h)
  have hlen' : (0 : ℚ) < (frame.length : ℚ) := by
    exact_mod_cast Nat.pos_of_ne_zero hlen
  have hiff : brightnessTooDark frame = true ↔
      frameTotal frame / (frame.length : ℚ) < 60 := by
    unfold brightnessTooDark
    rw [if_neg hlen]
    simp
  refine ⟨hiff, ?_, ?_⟩
  · intro h
    rw [hiff]
    have hmap : (frame.map fun p => (p.r + p.g + p.b) / 3) ≠ [] := by
      simpa using hne
    have hall : ∀ x ∈ frame.map fun p => (p.r + p.g + p.b) / 3, x < 60 := by
      intro x hx
      rcases List.mem_map.mp hx with ⟨p, hp, rfl⟩
      exact h p hp
    have hsum := sum_lt_of_forall_lt _ 60 hmap hall
    rw [List.length_map] at hsum
    rw [frameTotal_eq_sum, div_lt_iff₀ hlen']
    linarith
  · intro h
    have hall : ∀ x ∈ frame.map fun p => (p.r + p.g + p.b) / 3, x = 255 := by
      intro x hx
      rcases List.mem_map.mp hx with ⟨p, hp, rfl⟩
      rw [h p hp]
      norm_num
    have hsum := sum_of_forall_eq _ 255 hall
    rw [List.length_map] at hsum
    unfold brightnessTooDark
    rw [if_neg hlen]
    apply decide_eq_false
    rw [frameTotal_eq_sum, hsum, mul_div_assoc, div_self (ne_of_gt hlen'),
      mul_one]
    norm_num

/-- C2 witness: the one-pixel black frame. -/
theorem brightness_threshold_witness :
    darkFrame ≠ [] ∧
    ((brightnessTooDark darkFrame = true ↔
        frameTotal darkFrame / (darkFrame.length : ℚ) < 60) ∧
      ((∀ p ∈ darkFrame, (p.r + p.g + p.b) / 3 < 60) →
        brightnessTooDark darkFrame = true) ∧
      ((∀ p ∈ darkFrame, p = ⟨255, 255, 255, 255⟩) →
        brightnessTooDark darkFrame = false)) :=
  ⟨by simp [darkFrame], brightness_threshold darkFrame (by simp [darkFrame])⟩

/-- C3: with a non-empty name and exactly one detection, registration
succeeds, appends exactly one identity holding exactly one embedding at the
end of the registry, rewrites the persisted record with its length one
greater, and clears the name input. -/
theorem register_success (st : AppState) (e : Embedding)
    (hname : st.name ≠ "")
    (hsync : st.storage = serializeRegistry st.descriptors) :
    (handleRegister st (some e)).2.1 = RegisterResult.success st.name ∧
    (handleRegister st (some e)).1.descriptors
      = st.descriptors ++ [⟨st.name, [e]⟩] ∧
    (handleRegister st (some e)).1.descriptors.length
      = st.descriptors.length + 1 ∧
    (handleRegister st (some e)).1.storage
      = serializeRegistry (st.descriptors ++ [⟨st.name, [e]⟩]) ∧
    (handleRegister st (some e)).1.storage.length = st.storage.length + 1 ∧
    (handleRegister st (some e)).1.name = "" := by
  unfold handleRegister
  rw [if_neg hname]
  refine ⟨rfl, rfl, ?_, rfl, ?_, rfl⟩
  · simp
  · rw [hsync]
    simp [serializeRegistry]

/-- C3 witness: registering Bob with descriptor [1, 1] on the state already
holding Alice. -/
theorem register_success_witness :
    sampleState.name ≠ "" ∧
    sampleState.storage = serializeRegistry sampleState.descriptors ∧
    ((handleRegister sampleState (some [1, 1])).2.1
        = RegisterResult.success sampleState.name ∧
      (handleRegister sampleState (some [1, 1])).1.descriptors
        = sampleState.descriptors ++ [⟨sampleState.name, [[1, 1]]⟩] ∧
      (handleRegister sampleState (some [1, 1])).1.descriptors.length
        = sampleState.descriptors.length + 1 ∧
      (handleRegister sampleState (some [1, 1])).1.storage
        = serializeRegistry
            (sampleState.descriptors ++ [⟨sampleState.name, [[1, 1]]⟩]) ∧
      (handleRegister sampleState (some [1, 1])).1.storage.length
        = sampleState.storage.length + 1 ∧
      (handleRegister sampleState (some [1, 1])).1.name = "") :=
  ⟨by simp [sampleState], rfl,
    register_success sampleState [1, 1] (by simp [sampleState]) rfl⟩

/-- C4: registration with an empty name or with no detected face reports an
error and mutates nothing: the state, the registry length and the persisted
record are unchanged. -/
theorem register_failure_no_mutation (st : AppState) (det : Option Embedding)
    (h : st.name = "" ∨ det = none) :
    (handleRegister st det).1 = st ∧
    ((handleRegister st det).2.1 = RegisterResult.inputError ∨
      (handleRegister st det).2.1 = RegisterResult.detectionEmpty) ∧
    (handleRegister st det).1.descriptors.length = st.descriptors.length ∧
    (handleRegister st det).1.storage = st.storage := by
  unfold handleRegister
  by_cases hn : st.name = ""
  · rw [if_pos hn]
    exact ⟨rfl, Or.inl rfl, rfl, rfl⟩
  · rcases h with h | h
    · exact absurd h hn
    · subst h
      rw [if_neg hn]
      exact ⟨rfl, Or.inr rfl, rfl, rfl⟩

/-- C4 witness: registering on the empty-name state with a face present. -/
theorem register_failure_no_mutation_witness :
    (emptyState.name = "" ∨ (some [1, 1] : Option Embedding) = none) ∧
    ((handleRegister emptyState (some [1, 1])).1 = emptyState ∧
      ((handleRegister emptyState (some [1, 1])).2.1
          = RegisterResult.inputError ∨
        (handleRegister emptyState (some [1, 1])).2.1
          = RegisterResult.detectionEmpty) ∧
      (handleRegister emptyState (some [1, 1])).1.descriptors.length
        = emptyState.descriptors.length ∧
      (handleRegister emptyState (some [1, 1])).1.storage
        = emptyState.storage) :=
  ⟨Or.inl rfl, register_failure_no_mutation emptyState (some [1, 1]) (Or.inl rfl)⟩

/-- C5: serializing a registry to the persisted format and reparsing it is
the identity, and the persisted array has one element per identity. -/
theorem registry_roundtrip (r : Registry) :
    parseRegistry (serializeRegistry r) = r ∧
    (serializeRegistry r).length = r.length := by
  constructor
  · unfold parseRegistry serializeRegistry
    rw [List.map_map]
    have hcomp : parseEntry ∘ serializeEntry = id := by
      funext d
      rfl
    rw [hcomp, List.map_id]
  · exact List.length_map _ _

/-- C6: requesting detection with an empty registry alerts and leaves the
state untouched: no session starts, no matcher is built, the detecting flag
keeps its value. -/
theorem detect_empty_registry (st : AppState)
    (h : st.descriptors.length = 0) :
    handleDetect st = (st, DetectStart.registryEmpty) ∧
    (handleDetect st).1.detecting = st.detecting := by
  unfold handleDetect
  rw [if_pos h]
  exact ⟨rfl, rfl⟩

/-- C6 witness: detection requested on the state with nothing registered. -/
theorem detect_empty_registry_witness :
    emptyState.descriptors.length = 0 ∧
    (handleDetect emptyState = (emptyState, DetectStart.registryEmpty) ∧
      (handleDetect emptyState).1.detecting = emptyState.detecting) :=
  ⟨rfl, detect_empty_registry emptyState rfl⟩

/-- C7: once 30000 ms have elapsed since session entry, no poll tick occurs,
the detecting flag is off, and the controls carrying disabled={detecting}
are re-enabled. -/
theorem session_timeout (t : ℕ) (h : 30000 ≤ t) :
    pollTickOccurs t = false ∧ detectingAt t = false ∧
    controlsDisabledAt t = false := by
  have hlt : ¬t < 30000 := not_lt.mpr h
  refine ⟨?_, ?_, ?_⟩
  · unfold pollTickOccurs
    simp [hlt]
  · unfold detectingAt
    simp [hlt]
  · unfold controlsDisabledAt detectingAt
    simp [hlt]

/-- C7 witness: the instant the 30 s timer fires. -/
theorem session_timeout_witness :
    30000 ≤ 30000 ∧
    (pollTickOccurs 30000 = false ∧ detectingAt 30000 = false ∧
      controlsDisabledAt 30000 = false) :=
  ⟨le_refl _, session_timeout 30000 (le_refl _)⟩

/-- C8: the matcher of a started session is the registry as it was at entry,
and the match a poll tick computes is the one against that snapshot,
whatever registrations are applied to the component state afterwards. -/
theorem session_snapshot (st st1 : AppState) (sess : Session)
    (events : List (String × Option Embedding)) (probe : Embedding)
    (h : handleDetect st = (st1, DetectStart.started sess)) :
    sess.matcher = st.descriptors ∧
    matchDuringSession sess (applyRegistrations st1 events) probe
      = findBestMatch st.descriptors probe := by
  unfold handleDetect at h
  by_cases hc : st.descriptors.length = 0
  · rw [if_pos hc] at h
    injection h with h1 h2
    simp at h2
  · rw [if_neg hc] at h
    injection h with h1 h2
    injection h2 with h3
    constructor
    · rw [← h3]
    · show findBestMatch sess.matcher probe = findBestMatch st.descriptors probe
      rw [← h3]

/-- C8 witness: a session entered from the sample state, followed by one
further registration, still matches against the entry snapshot. -/
theorem session_snapshot_witness :
    handleDetect sampleState
      = ({ sampleState with detecting := true },
          DetectStart.started ⟨[sampleIdentity]⟩) ∧
    ((Session.mk [sampleIdentity]).matcher = sampleState.descriptors ∧
      matchDuringSession ⟨[sampleIdentity]⟩
          (applyRegistrations { sampleState with detecting := true }
            [("Carol", some [2, 2])]) [0, 0]
        = findBestMatch sampleState.descriptors [0, 0]) :=
  ⟨rfl, session_snapshot sampleState { sampleState with detecting := true }
    ⟨[sampleIdentity]⟩ [("Carol", some [2, 2])] [0, 0] rfl⟩

/-- C9: on a zero-pixel frame the unguarded quotient 0/0 makes the below-60
comparison false, so checkBrightness signals "ok" and clears any prior
warning instead of flagging "too dark" or keeping the previous state. -/
theorem brightness_empty_frame_ok :
    brightnessTooDark [] = false ∧
    ∀ prev : String, checkBrightness [] prev = "" := by
  refine ⟨rfl, ?_⟩
  intro prev
  rfl

/-- C10: registration reports its input error exactly when the name is the
empty string — any non-empty name, whitespace included, passes the guard —
and with an empty name the external detector is never invoked (zero calls),
while past the guard it is invoked exactly once. -/
theorem register_empty_name_guard (st : AppState) (det : Option Embedding) :
    ((handleRegister st det).2.1 = RegisterResult.inputError ↔
      st.name = "") ∧
    (st.name = "" → (handleRegister st det).2.2 = 0) ∧
    (st.name ≠ "" → (handleRegister st det).2.2 = 1) := by
  unfold handleRegister
  by_cases hn : st.name = ""
  · rw [if_pos hn]
    exact ⟨⟨fun _ => hn, fun _ => rfl⟩, fun _ => rfl, fun hc => absurd hn hc⟩
  · rw [if_neg hn]
    cases det with
    | none =>
      refine ⟨⟨?_, fun hc => absurd hc hn⟩, fun hc => absurd hc hn,
        fun _ => rfl⟩
      intro hc
      simp at hc
    | some d =>
      refine ⟨⟨?_, fun hc => absurd hc hn⟩, fun hc => absurd hc hn,
        fun _ => rfl⟩
      intro hc
      simp at hc

/-- C10 witness: the guard observed on the whitespace-only name " " with no
face in the frame. -/
theorem register_empty_name_guard_witness :
    ((handleRegister { emptyState with name := " " } none).2.1
        = RegisterResult.inputError ↔
      ({ emptyState with name := " " } : AppState).name = "") ∧
    (({ emptyState with name := " " } : AppState).name = "" →
      (handleRegister { emptyState with name := " " } none).2.2 = 0) ∧
    (({ emptyState with name := " " } : AppState).name ≠ "" →
      (handleRegister { emptyState with name := " " } none).2.2 = 1) :=
  register_empty_name_guard { emptyState with name := " " } none

end FaceRec
